import Mathlib

/-!
Verification of `pull.py` (pydockerpull): reference parsing, blob naming,
image pulling and archive assembly, shallowly embedded in Lean.

Python strings are embedded as `List Char`; the output directory as an
association list from file name to file data; JSON documents as an
inductive; the registry network as an explicit function parameter.
-/

set_option maxHeartbeats 1000000

/-- Python strings, embedded as lists of characters. -/
abbrev Str := List Char

/-- Python substring containment: `pat in s`. -/
def containsSub (pat : Str) : Str → Bool
  | [] => pat.isEmpty
  | c :: cs => pat.isPrefixOf (c :: cs) || containsSub pat cs

/-- Python `s.split(sep)` for a single-character separator. -/
def splitOnChar (sep : Char) : Str → List Str
  | [] => [[]]
  | c :: cs =>
    if c = sep then [] :: splitOnChar sep cs
    else
      match splitOnChar sep cs with
      | [] => [[c]]
      | h :: t => (c :: h) :: t

/-- Python `sep.join(xs)` for a single-character separator. -/
def joinSep (sep : Char) : List Str → Str
  | [] => []
  | [x] => x
  | x :: y :: xs => x ++ sep :: joinSep sep (y :: xs)

/-- Split at the first occurrence of `pat`: `some (before, after)`,
or `none` when `pat` does not occur. -/
def splitOnce (pat : Str) : Str → Option (Str × Str)
  | [] => none
  | c :: cs =>
    if pat.isPrefixOf (c :: cs) then some ([], (c :: cs).drop pat.length)
    else
      match splitOnce pat cs with
      | none => none
      | some (a, b) => some (c :: a, b)

instance {ε α : Type} [DecidableEq ε] [DecidableEq α] : DecidableEq (Except ε α) := fun x y =>
  match x, y with
  | .ok a, .ok b =>
    if h : a = b then .isTrue (by rw [h]) else .isFalse (by intro hc; cases hc; exact h rfl)
  | .error a, .error b =>
    if h : a = b then .isTrue (by rw [h]) else .isFalse (by intro hc; cases hc; exact h rfl)
  | .ok _, .error _ => .isFalse (by intro hc; cases hc)
  | .error _, .ok _ => .isFalse (by intro hc; cases hc)

/-- Python errors raised by the program (the exception kinds it uses).
`osError` is an operating-system failure while writing a file. -/
inductive PyError where
  | fileNotFound (msg : Str)
  | valueError (msg : Str)
  | keyError (msg : Str)
  | typeError (msg : Str)
  | osError (msg : Str)
  deriving DecidableEq, Repr

/-- Python `u, v = s.split(pat)`: succeeds exactly when `pat` occurs
exactly once in `s`, and then yields the parts before and after it;
otherwise the unpacking raises a `ValueError`. -/
def splitUnpack2 (pat s : Str) : Except PyError (Str × Str) :=
  match splitOnce pat s with
  | none => .error (.valueError "not enough values to unpack (expected 2, got 1)".toList)
  | some (a, b) =>
    if containsSub pat b then
      .error (.valueError "too many values to unpack (expected 2)".toList)
    else .ok (a, b)

/-- Python `s.replace(old, new)` for single characters. -/
def replaceChar (old new : Char) (s : Str) : Str :=
  s.map (fun c => if c = old then new else c)

/-- Python `os.path.join(a, b)`. -/
def osJoin (a b : Str) : Str :=
  match b with
  | '/' :: _ => b
  | _ =>
    match a.getLast? with
    | none => b
    | some '/' => a ++ b
    | some _ => a ++ '/' :: b

/-- The digest marker looked for in pull links. -/
def shaMark : Str := "@sha256:".toList

/-- `parse_docker_pull_link` from `pull.py` (lines 12-40): splits a pull
link into Harbor host, project, image name and tag-or-digest reference. -/
def parse_docker_pull_link (pull_link : Str) : Except PyError (Str × Str × Str × Str) :=
  if containsSub "://".toList pull_link then
    .error (.valueError "Docker pull link should not include protocol (e.g., http://).".toList)
  else
    match splitOnChar '/' pull_link with
    | p0 :: p1 :: p2 :: ps =>
      let image_and_ref := joinSep '/' (p2 :: ps)
      if containsSub shaMark image_and_ref then
        match splitUnpack2 shaMark image_and_ref with
        | .error e => .error e
        | .ok (image_name, image_ref) =>
          .ok (p0, p1, image_name, "sha256:".toList ++ image_ref)
      else if containsSub [':'] image_and_ref then
        match splitUnpack2 [':'] image_and_ref with
        | .error e => .error e
        | .ok (image_name, image_ref) => .ok (p0, p1, image_name, image_ref)
      else
        .ok (p0, p1, image_and_ref, "latest".toList)
    | _ =>
      .error (.valueError "Invalid Docker pull link format. Expected: <harbor-host>/<project>/<image>:<tag> or <harbor-host>/<project>/<image>/<image-name>@sha256:<digest>".toList)

/-- Re-join a parsed `(host, project, image, tag)` as
`host + "/" + project + "/" + image + ":" + tag`. -/
def rejoinTag (host project image tag : Str) : Str :=
  host ++ "/".toList ++ project ++ "/".toList ++ image ++ ":".toList ++ tag

/-- `repo_tag` derivation inside `create_image_tar` (`pull.py` lines 174-181):
a digest pull link `repo@sha256:hex` becomes the tag `repo:sha256-hex`,
any other pull link is used verbatim. -/
def repoTag (pull_link : Str) : Except PyError Str :=
  if containsSub shaMark pull_link then
    match splitUnpack2 shaMark pull_link with
    | .error e => .error e
    | .ok (repo, digest) => .ok (repo ++ ":sha256-".toList ++ digest)
  else .ok pull_link

section StrLemmas

theorem splitOnChar_ne_nil (sep : Char) (l : Str) : splitOnChar sep l ≠ [] := by
  induction l with
  | nil => simp [splitOnChar]
  | cons c cs ih =>
    simp only [splitOnChar]
    split
    · simp
    · cases h : splitOnChar sep cs <;> simp

theorem splitOnChar_not_mem {sep : Char} {l : Str} (h : sep ∉ l) : splitOnChar sep l = [l] := by
  induction l with
  | nil => rfl
  | cons c cs ih =>
    simp only [List.mem_cons, not_or] at h
    have hcs : c ≠ sep := fun hc => h.1 hc.symm
    simp only [splitOnChar, if_neg hcs, ih h.2]

theorem splitOnChar_append {sep : Char} {a : Str} (b : Str) (h : sep ∉ a) :
    splitOnChar sep (a ++ sep :: b) = a :: splitOnChar sep b := by
  induction a with
  | nil => simp [splitOnChar]
  | cons c cs ih =>
    simp only [List.mem_cons, not_or] at h
    have hcs : c ≠ sep := fun hc => h.1 hc.symm
    show splitOnChar sep (c :: (cs ++ sep :: b)) = (c :: cs) :: splitOnChar sep b
    simp only [splitOnChar, if_neg hcs, ih h.2]

theorem joinSep_cons_cons (sep c : Char) (x : Str) (xs : List Str) :
    joinSep sep ((c :: x) :: xs) = c :: joinSep sep (x :: xs) := by
  cases xs <;> simp [joinSep]

theorem joinSep_splitOnChar (sep : Char) (l : Str) : joinSep sep (splitOnChar sep l) = l := by
  induction l with
  | nil => rfl
  | cons c cs ih =>
    simp only [splitOnChar]
    split
    case isTrue hc =>
      cases hs : splitOnChar sep cs with
      | nil => exact absurd hs (splitOnChar_ne_nil _ _)
      | cons x xs =>
        rw [hs] at ih
        simp [joinSep, ih, hc]
    case isFalse hc =>
      cases hs : splitOnChar sep cs with
      | nil => exact absurd hs (splitOnChar_ne_nil _ _)
      | cons x xs =>
        rw [hs] at ih
        rw [joinSep_cons_cons, ih]

theorem isPrefixOf_append_self (p x : Str) : p.isPrefixOf (p ++ x) = true := by
  induction p with
  | nil => simp [List.isPrefixOf]
  | cons c cs ih => simp [List.isPrefixOf, ih]

theorem containsSub_append_left (pat a : Str) {b : Str} (h : containsSub pat b = true) :
    containsSub pat (a ++ b) = true := by
  induction a with
  | nil => simpa
  | cons c cs ih => simp [containsSub, ih]

theorem containsSub_nil_left (s : Str) : containsSub [] s = true := by
  cases s <;> simp [containsSub, List.isPrefixOf]

theorem containsSub_mid (pat a b : Str) : containsSub pat (a ++ (pat ++ b)) = true := by
  induction a with
  | nil =>
    cases pat with
    | nil => simpa using containsSub_nil_left b
    | cons p pr =>
      simp only [List.nil_append, List.cons_append, containsSub]
      have := isPrefixOf_append_self (p :: pr) b
      simp only [List.cons_append] at this
      simp [this]
  | cons c cs ih => simp [containsSub, ih]

theorem containsSub_head_not_mem {p : Char} {pr : Str} {s : Str} (h : p ∉ s) :
    containsSub (p :: pr) s = false := by
  induction s with
  | nil => simp [containsSub]
  | cons c cs ih =>
    simp only [List.mem_cons, not_or] at h
    have hb : (p == c) = false := by
      simpa using h.1
    simp [containsSub, List.isPrefixOf, hb, ih h.2]

theorem splitOnce_at {p : Char} {pr : Str} (a b : Str) (ha : p ∉ a) :
    splitOnce (p :: pr) (a ++ ((p :: pr) ++ b)) = some (a, b) := by
  induction a with
  | nil =>
    show splitOnce (p :: pr) (p :: (pr ++ b)) = some ([], b)
    have hpre : (p :: pr).isPrefixOf (p :: (pr ++ b)) = true :=
      isPrefixOf_append_self (p :: pr) b
    have hd : List.drop (p :: pr).length (p :: (pr ++ b)) = b :=
      List.drop_left (p :: pr) b
    simp only [splitOnce, hpre, if_true, hd]
  | cons c cs ih =>
    simp only [List.mem_cons, not_or] at ha
    have hb : (p == c) = false := by simpa using ha.1
    show splitOnce (p :: pr) (c :: (cs ++ ((p :: pr) ++ b))) = some (c :: cs, b)
    simp only [splitOnce, List.isPrefixOf, hb, Bool.false_and, Bool.false_eq_true,
      if_false, ih ha.2]

theorem splitUnpack2_at {p : Char} {pr : Str} (a b : Str) (ha : p ∉ a) (hb : p ∉ b) :
    splitUnpack2 (p :: pr) (a ++ ((p :: pr) ++ b)) = .ok (a, b) := by
  unfold splitUnpack2
  rw [splitOnce_at a b ha]
  simp [containsSub_head_not_mem hb]

theorem containsSub_cons_of (pat : Str) (c : Char) {s : Str} (h : containsSub pat s = true) :
    containsSub pat (c :: s) = true := by
  simp [containsSub, h]

theorem slash_toList : "/".toList = ['/'] := rfl

theorem colon_toList : ":".toList = [':'] := rfl

end StrLemmas

/-- A pull string of the form `host/project/image@sha256:hex`. -/
def digestPull (host project image hex : Str) : Str :=
  host ++ "/".toList ++ project ++ "/".toList ++ image ++ shaMark ++ hex

section ParseLemmas

/-- Shared helper: parsing a pull string whose image-and-reference tail is
`before ++ ":" ++ after` with no further colon and no digest marker. -/
theorem parse_tail_single_colon (host project before after : Str)
    (hh : '/' ∉ host) (hp : '/' ∉ project) (hb : ':' ∉ before) (ha : ':' ∉ after)
    (hscheme : containsSub "://".toList
      (host ++ '/' :: (project ++ '/' :: (before ++ ':' :: after))) = false)
    (hsha : containsSub shaMark (before ++ ':' :: after) = false) :
    parse_docker_pull_link (host ++ '/' :: (project ++ '/' :: (before ++ ':' :: after))) =
      .ok (host, project, before, after) := by
  have hsplit : splitOnChar '/' (host ++ '/' :: (project ++ '/' :: (before ++ ':' :: after)))
      = host :: project :: splitOnChar '/' (before ++ ':' :: after) := by
    rw [splitOnChar_append _ hh, splitOnChar_append _ hp]
  cases hq : splitOnChar '/' (before ++ ':' :: after) with
  | nil => exact absurd hq (splitOnChar_ne_nil _ _)
  | cons q qs =>
    have him : joinSep '/' (q :: qs) = before ++ ':' :: after := by
      rw [← hq]; exact joinSep_splitOnChar '/' _
    have hcolon : containsSub [':'] (before ++ ':' :: after) = true :=
      containsSub_mid [':'] before after
    have hsplit2 : splitUnpack2 [':'] (before ++ ':' :: after) = .ok (before, after) :=
      splitUnpack2_at before after hb ha
    rw [hq] at hsplit
    simp only [parse_docker_pull_link, hscheme, Bool.false_eq_true, if_false,
      hsplit, him, hsha, hcolon, if_true, hsplit2]

end ParseLemmas

/-- C1: for every valid pull string of the form
`<host>/<project>/<...image-path>:<tag>` (no protocol separator, at least
three slash-separated segments, exactly one colon in the tail, no digest
marker), parsing with `parse_docker_pull_link` and re-joining the returned
host, project, image and tag as `host/project/image:tag` reproduces the
original pull string exactly. -/
theorem parse_roundtrip_tag (host project image tag : Str)
    (hh : '/' ∉ host) (hp : '/' ∉ project)
    (hi : ':' ∉ image) (ht : ':' ∉ tag)
    (hscheme : containsSub "://".toList (rejoinTag host project image tag) = false)
    (hsha : containsSub shaMark (rejoinTag host project image tag) = false) :
    parse_docker_pull_link (rejoinTag host project image tag) =
      .ok (host, project, image, tag) := by
  have hs : rejoinTag host project image tag =
      host ++ '/' :: (project ++ '/' :: (image ++ ':' :: tag)) := by
    simp [rejoinTag, slash_toList, colon_toList, List.append_assoc]
  rw [hs] at hscheme hsha ⊢
  have htail : containsSub shaMark (image ++ ':' :: tag) = false := by
    by_contra hc
    rw [Bool.not_eq_false] at hc
    have h1 := containsSub_cons_of shaMark '/' hc
    have h2 := containsSub_append_left shaMark project h1
    have h3 := containsSub_cons_of shaMark '/' h2
    have h4 := containsSub_append_left shaMark host h3
    rw [hsha] at h4
    exact Bool.false_ne_true h4
  exact parse_tail_single_colon host project image tag hh hp hi ht hscheme htail

/-- Witness for C1 at a concrete multi-segment pull string. -/
theorem parse_roundtrip_tag_witness :
    parse_docker_pull_link
        (rejoinTag "h.io".toList "proj".toList "dir/img".toList "v1".toList) =
      .ok ("h.io".toList, "proj".toList, "dir/img".toList, "v1".toList) :=
  parse_roundtrip_tag "h.io".toList "proj".toList "dir/img".toList "v1".toList
    (by decide) (by decide) (by decide) (by decide) (by decide) (by decide)


/-- C3 (counterexample): on `h/p/i:a:b` — a pull string whose tail contains
two colons and no digest marker — the code raises a `ValueError` from the
two-variable unpacking of `split(":")` instead of splitting at the first
colon and returning image `i` with reference `a:b`. -/
theorem parse_first_colon_counterexample :
    parse_docker_pull_link "h/p/i:a:b".toList =
      .error (.valueError "too many values to unpack (expected 2)".toList) ∧
    parse_docker_pull_link "h/p/i:a:b".toList ≠
      .ok ("h".toList, "p".toList, "i".toList, "a:b".toList) := by
  exact ⟨by decide, by decide⟩

/-- C3 (amended): when the image-and-reference tail contains exactly one
colon (and no digest marker), `parse_docker_pull_link` splits the tail at
that colon and returns image = the text before it and ref = the text after
it, without raising; with two or more colons in the tail the two-variable
unpacking of `split(":")` raises instead. -/
theorem parse_single_colon_split (host project before after : Str)
    (hh : '/' ∉ host) (hp : '/' ∉ project)
    (hb : ':' ∉ before) (ha : ':' ∉ after)
    (ab : '@' ∉ before) (aa : '@' ∉ after)
    (hscheme : containsSub "://".toList
      (host ++ '/' :: (project ++ '/' :: (before ++ ':' :: after))) = false) :
    parse_docker_pull_link (host ++ '/' :: (project ++ '/' :: (before ++ ':' :: after))) =
      .ok (host, project, before, after) := by
  have hsha : containsSub shaMark (before ++ ':' :: after) = false := by
    have hmem : '@' ∉ before ++ ':' :: after := by
      simp only [List.mem_append, List.mem_cons, not_or]
      exact ⟨ab, by decide, aa⟩
    exact containsSub_head_not_mem hmem
  exact parse_tail_single_colon host project before after hh hp hb ha hscheme hsha

/-- Witness for the amended C3 at a concrete input. -/
theorem parse_single_colon_split_witness :
    parse_docker_pull_link
        ("reg".toList ++ '/' :: ("lib".toList ++ '/' :: ("app".toList ++ ':' :: "2.0".toList))) =
      .ok ("reg".toList, "lib".toList, "app".toList, "2.0".toList) :=
  parse_single_colon_split "reg".toList "lib".toList "app".toList "2.0".toList
    (by decide) (by decide) (by decide) (by decide) (by decide) (by decide) (by decide)

/-- C2: for every pull string of the form `host/project/image@sha256:hex`
(the digest marker occurring only there), `parse_docker_pull_link` returns
the reference `sha256:hex`, and the repo tag derived by `create_image_tar`
from the same pull string is `<everything-before-@>:sha256-hex`. -/
theorem parse_digest_and_repotag (host project image hex : Str)
    (hh : '/' ∉ host) (hp : '/' ∉ project)
    (ah : '@' ∉ host) (ap : '@' ∉ project) (ai : '@' ∉ image) (ax : '@' ∉ hex)
    (hscheme : containsSub "://".toList (digestPull host project image hex) = false) :
    parse_docker_pull_link (digestPull host project image hex) =
      .ok (host, project, image, "sha256:".toList ++ hex) ∧
    repoTag (digestPull host project image hex) =
      .ok (host ++ "/".toList ++ project ++ "/".toList ++ image ++ ":sha256-".toList ++ hex) := by
  have hmark : shaMark = '@' :: "sha256:".toList := rfl
  have hs : digestPull host project image hex =
      host ++ '/' :: (project ++ '/' :: (image ++ (shaMark ++ hex))) := by
    simp [digestPull, slash_toList, List.append_assoc]
  constructor
  · rw [hs] at hscheme ⊢
    have hsplit : splitOnChar '/'
        (host ++ '/' :: (project ++ '/' :: (image ++ (shaMark ++ hex))))
        = host :: project :: splitOnChar '/' (image ++ (shaMark ++ hex)) := by
      rw [splitOnChar_append _ hh, splitOnChar_append _ hp]
    cases hq : splitOnChar '/' (image ++ (shaMark ++ hex)) with
    | nil => exact absurd hq (splitOnChar_ne_nil _ _)
    | cons q qs =>
      have him : joinSep '/' (q :: qs) = image ++ (shaMark ++ hex) := by
        rw [← hq]; exact joinSep_splitOnChar '/' _
      have hcont : containsSub shaMark (image ++ (shaMark ++ hex)) = true :=
        containsSub_mid shaMark image hex
      have hsplit2 : splitUnpack2 shaMark (image ++ (shaMark ++ hex)) = .ok (image, hex) := by
        rw [hmark]
        exact splitUnpack2_at image hex ai ax
      rw [hq] at hsplit
      simp only [parse_docker_pull_link, hscheme, Bool.false_eq_true, if_false,
        hsplit, him, hcont, if_true, hsplit2]
  · have hA : '@' ∉ host ++ '/' :: (project ++ '/' :: image) := by
      simp only [List.mem_append, List.mem_cons, not_or]
      exact ⟨ah, by decide, ap, by decide, ai⟩
    have hs2 : digestPull host project image hex =
        (host ++ '/' :: (project ++ '/' :: image)) ++ (shaMark ++ hex) := by
      simp [digestPull, slash_toList, List.append_assoc]
    rw [hs2]
    have hcont : containsSub shaMark
        ((host ++ '/' :: (project ++ '/' :: image)) ++ (shaMark ++ hex)) = true :=
      containsSub_mid shaMark _ hex
    have hsplit2 : splitUnpack2 shaMark
        ((host ++ '/' :: (project ++ '/' :: image)) ++ (shaMark ++ hex)) =
        .ok (host ++ '/' :: (project ++ '/' :: image), hex) := by
      rw [hmark]
      exact splitUnpack2_at _ hex hA ax
    simp only [repoTag, hcont, if_true, hsplit2]
    congr 1
    simp [slash_toList, List.append_assoc]

/-- Witness for C2 at a concrete digest pull string. -/
theorem parse_digest_and_repotag_witness :
    parse_docker_pull_link (digestPull "h.io".toList "proj".toList "img".toList "0a1b".toList) =
      .ok ("h.io".toList, "proj".toList, "img".toList, "sha256:0a1b".toList) ∧
    repoTag (digestPull "h.io".toList "proj".toList "img".toList "0a1b".toList) =
      .ok ("h.io".toList ++ "/".toList ++ "proj".toList ++ "/".toList ++ "img".toList ++
        ":sha256-".toList ++ "0a1b".toList) :=
  parse_digest_and_repotag "h.io".toList "proj".toList "img".toList "0a1b".toList
    (by decide) (by decide) (by decide) (by decide) (by decide) (by decide) (by decide)

/-! ### Files, JSON documents and the output directory -/

/-- JSON values as produced by `json.load` / consumed by `json.dump`. -/
inductive Json where
  | null
  | bool (b : Bool)
  | num (n : Int)
  | str (s : Str)
  | arr (elems : List Json)
  | obj (fields : List (Str × Json))

/-- Python truthiness of a JSON value (`if not manifest`). -/
def Json.falsy : Json → Bool
  | .null => true
  | .bool b => !b
  | .num n => n == 0
  | .str s => s.isEmpty
  | .arr xs => xs.isEmpty
  | .obj fields => fields.isEmpty

/-- `isinstance(j, dict)`. -/
def Json.isObj : Json → Bool
  | .obj _ => true
  | _ => false

/-- Dictionary key lookup; a later duplicate key wins, as when `json.load`
builds a Python dict. -/
def Json.getKey : Json → Str → Option Json
  | .obj fields, k => (fields.reverse.find? (fun p => p.1 == k)).map (fun p => p.2)
  | _, _ => none

/-- Python `k in manifest` (on a dict). -/
def Json.hasKey (j : Json) (k : Str) : Bool :=
  (j.getKey k).isSome

/-- `j[k]` followed by use as a string (`.replace`): raises `TypeError` when
`j` is not a dict, `KeyError` when the key is absent, and an attribute
error (modelled as `TypeError`) when the value is not a string. -/
def Json.strField (j : Json) (k : Str) : Except PyError Str :=
  match j with
  | .obj _ =>
    match j.getKey k with
    | some (.str s) => .ok s
    | some _ => .error (.typeError "value has no attribute replace".toList)
    | none => .error (.keyError k)
  | _ => .error (.typeError "value is not subscriptable".toList)

/-- `manifest["config"]["digest"]` used as a string. -/
def Json.configDigest (j : Json) : Except PyError Str :=
  match j with
  | .obj _ =>
    match j.getKey "config".toList with
    | some cfg => cfg.strField "digest".toList
    | none => .error (.keyError "config".toList)
  | _ => .error (.typeError "value is not subscriptable".toList)

/-- `manifest["layers"]` iterated as a sequence of layer objects. Iterating
a non-list raises before any per-layer effect, which the model reports
directly as a `TypeError`. -/
def Json.layersField (j : Json) : Except PyError (List Json) :=
  match j.getKey "layers".toList with
  | some (.arr xs) => .ok xs
  | some _ => .error (.typeError "layers value is not a list of objects".toList)
  | none => .error (.keyError "layers".toList)

/-- `[layer["digest"] for layer in layers]`, each digest used as a string. -/
def layerDigests : List Json → Except PyError (List Str)
  | [] => .ok []
  | l :: rest =>
    match l.strField "digest".toList with
    | .error e => .error e
    | .ok d =>
      match layerDigests rest with
      | .error e => .error e
      | .ok ds => .ok (d :: ds)

/-- Contents of a file: bytes that parse as JSON, or opaque raw bytes. -/
inductive FileData where
  | json (j : Json)
  | raw (bytes : Str)

/-- The output directory: file names mapped to file contents. -/
abbrev FS := List (Str × FileData)

/-- An archive: member names paired with member contents. -/
abbrev Tar := List (Str × FileData)

/-- `os.path.exists` / reading a file. -/
def fsLookup (fs : FS) (name : Str) : Option FileData :=
  (fs.find? (fun p => p.1 == name)).map (fun p => p.2)

/-- `open(name, "w")`: overwrite in place, or append a new entry. -/
def fsWrite (fs : FS) (name : Str) (d : FileData) : FS :=
  match fs with
  | [] => [(name, d)]
  | (n, v) :: rest => if n == name then (name, d) :: rest else (n, v) :: fsWrite rest name d

/-- The manifest file name inside the output directory. -/
def manifestName : Str := "manifest.json".toList

/-- Digest-derived blob file name (`pull.py` lines 76, 79, 101, 160-161):
`:` replaced by `_`, suffixed `.json` for the config blob and `.tar.gz`
for a layer blob. -/
def blobFileName (digest : Str) (is_config : Bool) : Str :=
  replaceChar ':' '_' digest ++ (if is_config then ".json".toList else ".tar.gz".toList)

/-- The first expected layer file missing from the directory, if any
(the loop of `pull.py` lines 169-172). -/
def firstMissing (fs : FS) : List Str → Option Str
  | [] => none
  | n :: rest => if (fsLookup fs n).isNone then some n else firstMissing fs rest

/-- `create_image_tar` from `pull.py` (lines 131-210), with the archive
returned instead of written to `tar_path`: validates the stored registry
manifest, checks every digest-derived blob file exists, derives the repo
tag, overwrites `manifest.json` with the loader-format manifest and builds
the archive member list. The returned directory reflects all writes
performed before returning. -/
def create_image_tar (output_dir : Str) (fs : FS) (pull_link : Str) :
    FS × Except PyError Tar :=
  match fsLookup fs manifestName with
  | none =>
    (fs, .error (.fileNotFound ("Manifest file not found: ".toList ++ osJoin output_dir manifestName)))
  | some (.raw _) =>
    (fs, .error (.valueError "Manifest file is not valid JSON".toList))
  | some (.json manifest) =>
    if manifest.falsy then
      (fs, .error (.valueError "Manifest file is empty or invalid.".toList))
    else if !manifest.isObj then
      (fs, .error (.valueError "Manifest file is not in the expected format (expected a dictionary).".toList))
    else if !(manifest.hasKey "config".toList && manifest.hasKey "layers".toList) then
      (fs, .error (.valueError "Manifest file is not in the expected format (missing 'config' or 'layers').".toList))
    else
      match manifest.configDigest with
      | .error e => (fs, .error e)
      | .ok config_digest =>
        match manifest.layersField with
        | .error e => (fs, .error e)
        | .ok layers =>
          match layerDigests layers with
          | .error e => (fs, .error e)
          | .ok layer_ds =>
            let config_file := blobFileName config_digest true
            let layer_files := layer_ds.map (fun d => blobFileName d false)
            if (fsLookup fs config_file).isNone then
              (fs, .error (.fileNotFound ("Config file not found: ".toList ++ osJoin output_dir config_file)))
            else
              match firstMissing fs layer_files with
              | some lf =>
                (fs, .error (.fileNotFound ("Layer file not found: ".toList ++ osJoin output_dir lf)))
              | none =>
                match repoTag pull_link with
                | .error e => (fs, .error e)
                | .ok repo_tag =>
                  let docker_manifest : Json := .arr [.obj [
                    ("Config".toList, .str config_file),
                    ("RepoTags".toList, .arr [.str repo_tag]),
                    ("Layers".toList, .arr (layer_files.map (fun lf => .str lf)))]]
                  let fs1 := fsWrite fs manifestName (.json docker_manifest)
                  let tar : Tar :=
                    (manifestName, .json docker_manifest) ::
                    (config_file, (fsLookup fs1 config_file).getD (.raw [])) ::
                    layer_files.map (fun lf => (lf, (fsLookup fs1 lf).getD (.raw [])))
                  (fs1, .ok tar)

/-- `create_image_tar` with a fallible archive write. `tar_ok` is the
environment's verdict on creating and filling the tar file at `tar_path`
(`tarfile.open` / `tar.add`, `pull.py` lines 198-208): `false` models an
`OSError` there — an unwritable path, a full disk. In the source that
failure is raised only after `manifest.json` has already been overwritten
with the loader-format manifest (lines 193-195), so it returns the
rewritten directory and no archive; every validation failure is raised
before any write, exactly as in `create_image_tar`. -/
def create_image_tar_fallible (tar_ok : Bool) (output_dir : Str) (fs : FS)
    (pull_link : Str) : FS × Except PyError Tar :=
  match create_image_tar output_dir fs pull_link with
  | (fs1, .error e) => (fs1, .error e)
  | (fs1, .ok t) =>
    if tar_ok then (fs1, .ok t)
    else (fs1, .error (.osError "could not write tar file".toList))

section FsLemmas

theorem fsLookup_fsWrite (fs : FS) (n : Str) (d : FileData) (m : Str) :
    fsLookup (fsWrite fs n d) m = if m = n then some d else fsLookup fs m := by
  induction fs with
  | nil =>
    by_cases h : m = n
    · subst h; simp [fsWrite, fsLookup]
    · have hb : (n == m) = false := by simp [Ne.symm h]
      simp [fsWrite, fsLookup, hb, h]
  | cons p tl ih =>
    obtain ⟨pn, pd⟩ := p
    by_cases h1 : pn = n
    · subst h1
      by_cases h2 : m = pn
      · subst h2; simp [fsWrite, fsLookup]
      · have hb : (pn == m) = false := by simp [Ne.symm h2]
        simp [fsWrite, fsLookup, hb, h2]
    · have hb1 : (pn == n) = false := by simp [h1]
      by_cases h2 : m = pn
      · subst h2
        simp [fsWrite, fsLookup, hb1, h1]
      · have hb2 : (pn == m) = false := by simp [Ne.symm h2]
        simp only [fsWrite, hb1, Bool.false_eq_true, if_false]
        simp only [fsLookup, List.find?, hb2] at ih ⊢
        exact ih

/-- Writes never remove entries: a present file stays present. -/
theorem fsLookup_fsWrite_isSome (fs : FS) (n : Str) (d : FileData) (m : Str)
    (h : (fsLookup fs m).isSome) : (fsLookup (fsWrite fs n d) m).isSome := by
  rw [fsLookup_fsWrite]
  by_cases hm : m = n <;> simp [hm, h]

end FsLemmas

/-- The registry-format manifest of the spec's assembly scenario:
config digest `sha256:aaa`, one layer digest `sha256:bbb`. -/
def regManifest : Json :=
  .obj [("config".toList, .obj [("digest".toList, .str "sha256:aaa".toList)]),
        ("layers".toList, .arr [.obj [("digest".toList, .str "sha256:bbb".toList)]])]

/-- The output directory of the scenario: the registry manifest plus the
two blob files with arbitrary contents. -/
def scenarioDir (c1 c2 : FileData) : FS :=
  [(manifestName, .json regManifest),
   ("sha256_aaa.json".toList, c1),
   ("sha256_bbb.tar.gz".toList, c2)]

/-- The loader-format manifest `create_image_tar` builds for the scenario. -/
def scenarioLoaderManifest (rt : Str) : Json :=
  .arr [.obj [("Config".toList, .str "sha256_aaa.json".toList),
              ("RepoTags".toList, .arr [.str rt]),
              ("Layers".toList, .arr [.str "sha256_bbb.tar.gz".toList])]]

/-- C4: on a directory holding the scenario manifest and both blob files,
`create_image_tar` succeeds; the archive has exactly the three members
`manifest.json`, `sha256_aaa.json` and `sha256_bbb.tar.gz`; the archived
`manifest.json` is a single-element list whose element has
`Config == "sha256_aaa.json"` and `Layers == ["sha256_bbb.tar.gz"]`; and
each member's name is the file name recorded in that loader manifest. -/
theorem create_success_three_members (output_dir : Str) (c1 c2 : FileData)
    (pull_link rt : Str) (hrt : repoTag pull_link = .ok rt) :
    create_image_tar output_dir (scenarioDir c1 c2) pull_link =
      ([(manifestName, .json (scenarioLoaderManifest rt)),
        ("sha256_aaa.json".toList, c1),
        ("sha256_bbb.tar.gz".toList, c2)],
       .ok [(manifestName, .json (scenarioLoaderManifest rt)),
            ("sha256_aaa.json".toList, c1),
            ("sha256_bbb.tar.gz".toList, c2)]) := by
  unfold create_image_tar
  rw [hrt]
  rfl

/-- Witness for C4 at a concrete pull link and blob contents. -/
theorem create_success_three_members_witness :
    create_image_tar "out".toList
        (scenarioDir (.raw "C1".toList) (.raw "C2".toList)) "h/p/i:t".toList =
      ([(manifestName, .json (scenarioLoaderManifest "h/p/i:t".toList)),
        ("sha256_aaa.json".toList, .raw "C1".toList),
        ("sha256_bbb.tar.gz".toList, .raw "C2".toList)],
       .ok [(manifestName, .json (scenarioLoaderManifest "h/p/i:t".toList)),
            ("sha256_aaa.json".toList, .raw "C1".toList),
            ("sha256_bbb.tar.gz".toList, .raw "C2".toList)]) :=
  create_success_three_members "out".toList (.raw "C1".toList) (.raw "C2".toList)
    "h/p/i:t".toList "h/p/i:t".toList (by rfl)

/-- C5: on the same manifest with `sha256_bbb.tar.gz` absent from the
directory, `create_image_tar` fails with a `NotFoundError` whose message
names that missing file, leaves the directory untouched, and produces no
archive. -/
theorem create_missing_layer_not_found (output_dir : Str) (c1 : FileData) (pull_link : Str) :
    create_image_tar output_dir
        [(manifestName, .json regManifest), ("sha256_aaa.json".toList, c1)] pull_link =
      ([(manifestName, .json regManifest), ("sha256_aaa.json".toList, c1)],
       .error (.fileNotFound
         ("Layer file not found: ".toList ++ osJoin output_dir "sha256_bbb.tar.gz".toList))) := by
  rfl

section CreateCases

/-- Every run of `create_image_tar` either fails leaving the directory
untouched, or succeeds having rewritten `manifest.json` with the
single-element loader-format manifest. -/
theorem create_shape (od : Str) (fs : FS) (pull : Str) :
    (∃ e, create_image_tar od fs pull = (fs, .error e)) ∨
    (∃ x t, create_image_tar od fs pull =
      (fsWrite fs manifestName (.json (.arr [.obj x])), .ok t)) := by
  unfold create_image_tar
  dsimp only
  repeat' split
  all_goals first
    | exact Or.inl ⟨_, rfl⟩
    | exact Or.inr ⟨_, _, rfl⟩

end CreateCases

/-- C9 (counterexample): with the archive write failing (`tar_ok = false`,
an `OSError` from `tarfile.open` / `tar.add`), `create_image_tar` on the
concrete scenario directory fails — yet `manifest.json`, which held the
registry manifest before the call, now holds the loader-format manifest:
this failure does not leave the output directory as it was. -/
theorem create_failure_modifies_dir_counterexample :
    fsLookup (scenarioDir (.raw "C1".toList) (.raw "C2".toList)) manifestName =
      some (.json regManifest) ∧
    (create_image_tar_fallible false "out".toList
        (scenarioDir (.raw "C1".toList) (.raw "C2".toList)) "h/p/i:t".toList).2 =
      .error (.osError "could not write tar file".toList) ∧
    fsLookup (create_image_tar_fallible false "out".toList
        (scenarioDir (.raw "C1".toList) (.raw "C2".toList)) "h/p/i:t".toList).1
      manifestName =
      some (.json (scenarioLoaderManifest "h/p/i:t".toList)) ∧
    some (FileData.json (scenarioLoaderManifest "h/p/i:t".toList)) ≠
      some (FileData.json regManifest) := by
  refine ⟨rfl, rfl, rfl, ?_⟩
  intro h
  injection h with h
  injection h with h
  exact absurd (congrArg Json.isObj h) (by decide)

/-- C9 (amended): every failure raised by `create_image_tar`'s own
validation — a missing `manifest.json`, a malformed manifest, a missing
blob file, a malformed pull link, all raised before any write — leaves
the output directory exactly as it was and produces no archive, whatever
the archive-write environment; an archive-write failure, however, occurs
only after `manifest.json` has been overwritten with the single-element
loader-format manifest, so on that failure class the directory does not
keep its pre-call content. -/
theorem create_failure_dir_effects :
    (∀ tar_ok od fs pull e, (create_image_tar od fs pull).2 = .error e →
      create_image_tar_fallible tar_ok od fs pull = (fs, .error e)) ∧
    (∀ od fs pull fs1 t, create_image_tar od fs pull = (fs1, .ok t) →
      ∃ x, fs1 = fsWrite fs manifestName (.json (.arr [.obj x])) ∧
        create_image_tar_fallible false od fs pull =
          (fs1, .error (.osError "could not write tar file".toList))) := by
  constructor
  · intro tar_ok od fs pull e h
    rcases create_shape od fs pull with ⟨e2, he⟩ | ⟨x, t, ht⟩
    · rw [he] at h
      injection h with h
      subst h
      unfold create_image_tar_fallible
      rw [he]
    · rw [ht] at h
      exact absurd h (by simp)
  · intro od fs pull fs1 t h
    rcases create_shape od fs pull with ⟨e2, he⟩ | ⟨x, t2, ht⟩
    · rw [he] at h
      exact absurd h (by simp)
    · rw [ht] at h
      simp only [Prod.mk.injEq] at h
      obtain ⟨h1, h2⟩ := h
      have hrw : create_image_tar_fallible false od fs pull =
          (fsWrite fs manifestName (.json (.arr [.obj x])),
            .error (.osError "could not write tar file".toList)) := by
        unfold create_image_tar_fallible
        rw [ht]
        rfl
      refine ⟨x, h1.symm, ?_⟩
      rw [hrw, h1]

/-- Witness for the amended C9: a missing-manifest failure leaves an
empty directory unchanged even with a healthy archive environment, and
on the concrete scenario a failing archive write errors only after the
manifest rewrite. -/
theorem create_failure_dir_effects_witness :
    create_image_tar_fallible true "out".toList ([] : FS) "h/p/i:t".toList =
      (([] : FS), .error (.fileNotFound
        ("Manifest file not found: ".toList ++ osJoin "out".toList manifestName))) ∧
    ∃ x, ([(manifestName, FileData.json (scenarioLoaderManifest "h/p/i:t".toList)),
        ("sha256_aaa.json".toList, FileData.raw "C1".toList),
        ("sha256_bbb.tar.gz".toList, FileData.raw "C2".toList)] : FS) =
      fsWrite (scenarioDir (.raw "C1".toList) (.raw "C2".toList)) manifestName
        (.json (.arr [.obj x])) ∧
      create_image_tar_fallible false "out".toList
          (scenarioDir (.raw "C1".toList) (.raw "C2".toList)) "h/p/i:t".toList =
        ([(manifestName, FileData.json (scenarioLoaderManifest "h/p/i:t".toList)),
          ("sha256_aaa.json".toList, FileData.raw "C1".toList),
          ("sha256_bbb.tar.gz".toList, FileData.raw "C2".toList)],
         .error (.osError "could not write tar file".toList)) :=
  ⟨create_failure_dir_effects.1 true "out".toList [] "h/p/i:t".toList
      (.fileNotFound ("Manifest file not found: ".toList ++ osJoin "out".toList manifestName))
      (by rfl),
   create_failure_dir_effects.2 "out".toList
      (scenarioDir (.raw "C1".toList) (.raw "C2".toList)) "h/p/i:t".toList
      [(manifestName, FileData.json (scenarioLoaderManifest "h/p/i:t".toList)),
       ("sha256_aaa.json".toList, FileData.raw "C1".toList),
       ("sha256_bbb.tar.gz".toList, FileData.raw "C2".toList)]
      [(manifestName, FileData.json (scenarioLoaderManifest "h/p/i:t".toList)),
       ("sha256_aaa.json".toList, FileData.raw "C1".toList),
       ("sha256_bbb.tar.gz".toList, FileData.raw "C2".toList)]
      (by rfl)⟩

/-- C8: re-running `create_image_tar` on a directory unchanged since a
successful run (so `manifest.json` now holds the loader-format list)
fails cleanly with the documented dictionary `FormatError`, producing no
archive and leaving the directory unmodified. -/
theorem create_rerun_fails_cleanly (od : Str) (fs : FS) (pull : Str) (fs1 : FS) (t : Tar)
    (h : create_image_tar od fs pull = (fs1, .ok t)) :
    create_image_tar od fs1 pull =
      (fs1, .error (.valueError
        "Manifest file is not in the expected format (expected a dictionary).".toList)) := by
  have hfs1 : ∃ x, fs1 = fsWrite fs manifestName (.json (.arr [.obj x])) := by
    rcases create_shape od fs pull with ⟨e2, he⟩ | ⟨x, t2, ht⟩
    · rw [he] at h
      exact absurd h (by simp)
    · rw [ht] at h
      simp only [Prod.mk.injEq] at h
      exact ⟨x, h.1.symm⟩
  obtain ⟨x, hfs1⟩ := hfs1
  have hlook : fsLookup fs1 manifestName = some (.json (.arr [.obj x])) := by
    rw [hfs1, fsLookup_fsWrite]
    simp
  unfold create_image_tar
  rw [hlook]
  rfl

/-- Witness for C8: the concrete scenario run again after its first
successful run. -/
theorem create_rerun_fails_cleanly_witness :
    create_image_tar "out".toList
        [(manifestName, .json (scenarioLoaderManifest "h/p/i:t".toList)),
         ("sha256_aaa.json".toList, FileData.raw "C1".toList),
         ("sha256_bbb.tar.gz".toList, FileData.raw "C2".toList)] "h/p/i:t".toList =
      ([(manifestName, .json (scenarioLoaderManifest "h/p/i:t".toList)),
        ("sha256_aaa.json".toList, FileData.raw "C1".toList),
        ("sha256_bbb.tar.gz".toList, FileData.raw "C2".toList)],
       .error (.valueError
         "Manifest file is not in the expected format (expected a dictionary).".toList)) :=
  create_rerun_fails_cleanly "out".toList
    (scenarioDir (.raw "C1".toList) (.raw "C2".toList)) "h/p/i:t".toList
    [(manifestName, .json (scenarioLoaderManifest "h/p/i:t".toList)),
     ("sha256_aaa.json".toList, FileData.raw "C1".toList),
     ("sha256_bbb.tar.gz".toList, FileData.raw "C2".toList)]
    [(manifestName, .json (scenarioLoaderManifest "h/p/i:t".toList)),
     ("sha256_aaa.json".toList, FileData.raw "C1".toList),
     ("sha256_bbb.tar.gz".toList, FileData.raw "C2".toList)]
    (by rfl)

/-! ### Pulling an image: `pull_image` with the registry as a parameter -/

/-- A blob download attempt: the digest requested, whether it was the
config blob, and the network outcome. -/
structure BlobEvent where
  digest : Str
  isConfig : Bool
  result : Except PyError Str

/-- Outcome of a `pull_image` run. -/
inductive PullStatus where
  | success
  | manifestFetchFailed
  | configDownloadFailed
  | layerDownloadFailed (digest : Str)
  | raised (e : PyError)
  deriving DecidableEq

/-- `manifest.get("layers", [])` iterated as a sequence of layer objects. -/
def layersDefault (manifest : Json) : Except PyError (List Json) :=
  match manifest.getKey "layers".toList with
  | none => .ok []
  | some (.arr xs) => .ok xs
  | some _ => .error (.typeError "layers value is not a list of objects".toList)

/-- The layer loop of `pull_image` (`pull.py` lines 112-120): fetch each
layer blob in manifest order and write it under its digest-derived name,
overwriting any existing file; the first failure aborts the remaining
downloads. Returns the directory, the download attempts made, and the
loop outcome. -/
def pullLayers (net : Str → Except PyError Str) : List Json → FS → FS × List BlobEvent × PullStatus
  | [], fs => (fs, [], .success)
  | l :: rest, fs =>
    match l.strField "digest".toList with
    | .error e => (fs, [], .raised e)
    | .ok d =>
      match net d with
      | .error e => (fs, [⟨d, false, .error e⟩], .layerDownloadFailed d)
      | .ok body =>
        match pullLayers net rest (fsWrite fs (blobFileName d false) (.raw body)) with
        | (fs2, evs, st) => (fs2, ⟨d, false, .ok body⟩ :: evs, st)

/-- The tail of `pull_image` after the config step: the layer loop
followed by saving the fetched manifest as `manifest.json`
(`pull.py` lines 111-126). -/
def pullRest (net : Str → Except PyError Str) (manifest : Json) (fs : FS)
    (evs0 : List BlobEvent) : FS × List BlobEvent × PullStatus :=
  match layersDefault manifest with
  | .error e => (fs, evs0, .raised e)
  | .ok ls =>
    match pullLayers net ls fs with
    | (fs2, evs, st) =>
      if st = .success then
        (fsWrite fs2 manifestName (.json manifest), evs0 ++ evs, .success)
      else (fs2, evs0 ++ evs, st)

/-- `pull_image` from `pull.py` (lines 87-128), with the manifest fetch
outcome and the blob network as explicit parameters: the config blob is
downloaded only when its destination file does not already exist, every
layer blob is downloaded unconditionally, and the fetched manifest is
written as `manifest.json` only after all downloads succeeded. -/
def pull_image (fetchManifest : Except PyError Json) (net : Str → Except PyError Str)
    (fs : FS) : FS × List BlobEvent × PullStatus :=
  match fetchManifest with
  | .error _ => (fs, [], .manifestFetchFailed)
  | .ok manifest =>
    match manifest.configDigest with
    | .error e => (fs, [], .raised e)
    | .ok config_digest =>
      if (fsLookup fs (blobFileName config_digest true)).isSome then
        pullRest net manifest fs []
      else
        match net config_digest with
        | .error e => (fs, [⟨config_digest, true, .error e⟩], .configDownloadFailed)
        | .ok body =>
          pullRest net manifest
            (fsWrite fs (blobFileName config_digest true) (.raw body))
            [⟨config_digest, true, .ok body⟩]

section PullLemmas

theorem ne_of_last {c d : Char} (h : c ≠ d) (a b : Str) : a ++ [c] ≠ b ++ [d] := by
  intro he
  have h2 := congrArg List.reverse he
  simp only [List.reverse_append, List.reverse_singleton, List.singleton_append] at h2
  injection h2 with h3 _
  exact h h3

theorem layerFile_ne_manifestName (d : Str) : blobFileName d false ≠ manifestName := by
  have hsuf : ".tar.gz".toList = ".tar.g".toList ++ ['z'] := rfl
  have h1 : blobFileName d false = (replaceChar ':' '_' d ++ ".tar.g".toList) ++ ['z'] := by
    show replaceChar ':' '_' d ++ ".tar.gz".toList = _
    rw [hsuf, ← List.append_assoc]
  have h2 : manifestName = "manifest.jso".toList ++ ['n'] := rfl
  rw [h1, h2]
  exact ne_of_last (by decide) _ _

/-- The layer loop never touches a file that is not a layer blob file. -/
theorem pullLayers_lookup_other (net : Str → Except PyError Str) (ls : List Json) (f : Str)
    (hf : ∀ d, blobFileName d false ≠ f) :
    ∀ fs, fsLookup (pullLayers net ls fs).1 f = fsLookup fs f := by
  induction ls with
  | nil => intro fs; rfl
  | cons l rest ih =>
    intro fs
    simp only [pullLayers]
    cases hl : l.strField "digest".toList with
    | error e => rfl
    | ok d =>
      dsimp only
      cases hn : net d with
      | error e => rfl
      | ok body =>
        dsimp only
        rw [ih (fsWrite fs (blobFileName d false) (.raw body)), fsLookup_fsWrite,
          if_neg (fun hEq => hf d hEq.symm)]

/-- The layer loop only writes files of the digests listed; any other file
keeps its content. -/
theorem pullLayers_lookup_notin (net : Str → Except PyError Str) (ls : List Json)
    (ds : List Str) (f : Str) (hds : layerDigests ls = .ok ds)
    (hf : ∀ d ∈ ds, blobFileName d false ≠ f) :
    ∀ fs, fsLookup (pullLayers net ls fs).1 f = fsLookup fs f := by
  induction ls generalizing ds with
  | nil => intro fs; rfl
  | cons l rest ih =>
    intro fs
    simp only [layerDigests] at hds
    cases hl : l.strField "digest".toList with
    | error e => rw [hl] at hds; cases hds
    | ok d =>
      rw [hl] at hds
      cases hr : layerDigests rest with
      | error e => rw [hr] at hds; cases hds
      | ok ds2 =>
        rw [hr] at hds
        injection hds with hds
        subst hds
        simp only [pullLayers, hl]
        cases hn : net d with
        | error e => rfl
        | ok body =>
          dsimp only
          rw [ih ds2 hr (fun d2 h2 => hf d2 (List.mem_cons_of_mem _ h2))
            (fsWrite fs (blobFileName d false) (.raw body)), fsLookup_fsWrite,
            if_neg (fun hEq => hf d (List.mem_cons_self d ds2) hEq.symm)]

/-- The layer loop never removes a file. -/
theorem pullLayers_preserves_isSome (net : Str → Except PyError Str) (ls : List Json)
    (f : Str) :
    ∀ fs, (fsLookup fs f).isSome = true →
      (fsLookup (pullLayers net ls fs).1 f).isSome = true := by
  induction ls with
  | nil => intro fs h; exact h
  | cons l rest ih =>
    intro fs h
    simp only [pullLayers]
    cases hl : l.strField "digest".toList with
    | error e => exact h
    | ok d =>
      dsimp only
      cases hn : net d with
      | error e => exact h
      | ok body =>
        dsimp only
        exact ih (fsWrite fs (blobFileName d false) (.raw body))
          (fsLookup_fsWrite_isSome fs (blobFileName d false) (.raw body) f h)

/-- When every layer digest parses and every fetch succeeds, the loop's
download attempts are exactly one per layer digest, in manifest order,
none of them for the config blob, and the loop succeeds. -/
theorem pullLayers_ok (net : Str → Except PyError Str) (ls : List Json) (ds : List Str)
    (hds : layerDigests ls = .ok ds) (hnet : ∀ d ∈ ds, (net d).isOk = true) :
    ∀ fs, (pullLayers net ls fs).2 =
      (ds.map (fun d => BlobEvent.mk d false (net d)), .success) := by
  induction ls generalizing ds with
  | nil =>
    intro fs
    injection hds with hds
    subst hds
    rfl
  | cons l rest ih =>
    intro fs
    simp only [layerDigests] at hds
    cases hl : l.strField "digest".toList with
    | error e => rw [hl] at hds; cases hds
    | ok d =>
      rw [hl] at hds
      cases hr : layerDigests rest with
      | error e => rw [hr] at hds; cases hds
      | ok ds2 =>
        rw [hr] at hds
        injection hds with hds
        subst hds
        have hd0 : (net d).isOk = true := hnet d (List.mem_cons_self d ds2)
        cases hn : net d with
        | error e => rw [hn] at hd0; cases hd0
        | ok body =>
          simp only [pullLayers, hl, hn]
          have hrec := ih ds2 hr (fun d2 h2 => hnet d2 (List.mem_cons_of_mem _ h2))
            (fsWrite fs (blobFileName d false) (.raw body))
          have h1 := congrArg Prod.fst hrec
          have h2 := congrArg Prod.snd hrec
          dsimp only at h1 h2
          rw [List.map_cons, hn, h1, h2]

/-- When every layer fetch succeeds and the digest-to-filename map is
injective on the manifest's digests, the loop leaves every layer file
holding the bytes fetched for its digest. -/
theorem pullLayers_content (net : Str → Except PyError Str) (ls : List Json) (ds : List Str)
    (hds : layerDigests ls = .ok ds) (hnet : ∀ d ∈ ds, (net d).isOk = true)
    (hinj : ∀ d1 ∈ ds, ∀ d2 ∈ ds, blobFileName d1 false = blobFileName d2 false → d1 = d2) :
    ∀ fs, ∀ d ∈ ds, ∃ b, net d = .ok b ∧
      fsLookup (pullLayers net ls fs).1 (blobFileName d false) = some (.raw b) := by
  induction ls generalizing ds with
  | nil =>
    intro fs d hd
    injection hds with hds
    subst hds
    cases hd
  | cons l rest ih =>
    intro fs d hd
    simp only [layerDigests] at hds
    cases hl : l.strField "digest".toList with
    | error e => rw [hl] at hds; cases hds
    | ok d0 =>
      rw [hl] at hds
      cases hr : layerDigests rest with
      | error e => rw [hr] at hds; cases hds
      | ok ds2 =>
        rw [hr] at hds
        injection hds with hds
        subst hds
        have hd00 : (net d0).isOk = true := hnet d0 (List.mem_cons_self d0 ds2)
        cases hn : net d0 with
        | error e => rw [hn] at hd00; cases hd00
        | ok body =>
          simp only [pullLayers, hl, hn]
          by_cases hmem : d ∈ ds2
          · exact ih ds2 hr (fun d2 h2 => hnet d2 (List.mem_cons_of_mem _ h2))
              (fun d1 h1 d2 h2 hEq =>
                hinj d1 (List.mem_cons_of_mem _ h1) d2 (List.mem_cons_of_mem _ h2) hEq)
              (fsWrite fs (blobFileName d0 false) (.raw body)) d hmem
          · have hd0 : d = d0 := by
              rcases List.mem_cons.mp hd with h | h
              · exact h
              · exact absurd h hmem
            subst hd0
            refine ⟨body, hn, ?_⟩
            rw [pullLayers_lookup_notin net rest ds2 (blobFileName d false) hr
              (fun d2 h2 hEq => by
                have := hinj d2 (List.mem_cons_of_mem _ h2) d (List.mem_cons_self d ds2) hEq
                exact hmem (this ▸ h2))
              (fsWrite fs (blobFileName d false) (.raw body)),
              fsLookup_fsWrite, if_pos rfl]

/-- Every file a successful download attempt wrote is still present when
the loop returns. -/
theorem pullLayers_event_present (net : Str → Except PyError Str) (ls : List Json) :
    ∀ fs, ∀ e ∈ (pullLayers net ls fs).2.1, ∀ b, e.result = .ok b →
      (fsLookup (pullLayers net ls fs).1 (blobFileName e.digest e.isConfig)).isSome = true := by
  induction ls with
  | nil => intro fs e he; cases he
  | cons l rest ih =>
    intro fs e he b hb
    simp only [pullLayers] at he ⊢
    revert he
    cases hl : l.strField "digest".toList with
    | error e2 =>
      intro he
      cases he
    | ok d =>
      dsimp only
      cases hn : net d with
      | error e2 =>
        intro he
        rcases List.mem_singleton.mp he with rfl
        cases hb
      | ok body =>
        dsimp only
        intro he
        rcases List.mem_cons.mp he with rfl | hmem
        · have hpres := pullLayers_preserves_isSome net rest (blobFileName d false)
            (fsWrite fs (blobFileName d false) (.raw body))
            (by rw [fsLookup_fsWrite, if_pos rfl]; rfl)
          exact hpres
        · exact ih (fsWrite fs (blobFileName d false) (.raw body)) e hmem b hb

/-- When the post-config phase does not succeed, its directory and events
are those of the layer loop alone: the manifest write never happened. -/
theorem pullRest_fail_fs (net : Str → Except PyError Str) (manifest : Json) (fs : FS)
    (evs0 : List BlobEvent)
    (hfail : (pullRest net manifest fs evs0).2.2 ≠ .success) :
    ∃ ls, (pullRest net manifest fs evs0).1 = (pullLayers net ls fs).1 ∧
      (pullRest net manifest fs evs0).2.1 = evs0 ++ (pullLayers net ls fs).2.1 := by
  cases hl : layersDefault manifest with
  | error e =>
    have hrw : pullRest net manifest fs evs0 = (fs, evs0, .raised e) := by
      unfold pullRest; rw [hl]
    refine ⟨[], ?_, ?_⟩ <;> rw [hrw] <;> simp [pullLayers]
  | ok ls =>
    by_cases hst : (pullLayers net ls fs).2.2 = .success
    · have hrw : (pullRest net manifest fs evs0).2.2 = .success := by
        unfold pullRest
        rw [hl]
        dsimp only
        rw [if_pos hst]
      exact absurd hrw hfail
    · have hrw : pullRest net manifest fs evs0 =
          ((pullLayers net ls fs).1, evs0 ++ (pullLayers net ls fs).2.1,
            (pullLayers net ls fs).2.2) := by
        unfold pullRest
        rw [hl]
        dsimp only
        rw [if_neg hst]
      exact ⟨ls, by rw [hrw], by rw [hrw]⟩

/-- When the post-config phase fails, `manifest.json` is untouched and
every file written by a blob download attempt so far is still present. -/
theorem pullRest_fail_props (net : Str → Except PyError Str) (manifest : Json) (fs : FS)
    (evs0 : List BlobEvent)
    (hfail : (pullRest net manifest fs evs0).2.2 ≠ .success)
    (hevs0 : ∀ e ∈ evs0, ∀ b, e.result = .ok b →
      (fsLookup fs (blobFileName e.digest e.isConfig)).isSome = true) :
    fsLookup (pullRest net manifest fs evs0).1 manifestName = fsLookup fs manifestName ∧
    ∀ e ∈ (pullRest net manifest fs evs0).2.1, ∀ b, e.result = .ok b →
      (fsLookup (pullRest net manifest fs evs0).1
        (blobFileName e.digest e.isConfig)).isSome = true := by
  obtain ⟨ls, h1, h2⟩ := pullRest_fail_fs net manifest fs evs0 hfail
  constructor
  · rw [h1]
    exact pullLayers_lookup_other net ls manifestName layerFile_ne_manifestName fs
  · intro e he b hb
    rw [h2] at he
    rw [h1]
    rcases List.mem_append.mp he with h0 | hpl
    · exact pullLayers_preserves_isSome net ls _ fs (hevs0 e h0 b hb)
    · exact pullLayers_event_present net ls fs e hpl b hb

end PullLemmas

/-- C6: in `pull_image`, when the config blob's destination file already
exists in the output directory the config blob download is skipped (no
download attempt is made for it), while every layer blob is downloaded in
manifest order and its destination file written with the fetched bytes
regardless of whether that file already existed. -/
theorem pull_config_skip_layers_refetch (net : Str → Except PyError Str) (fs : FS)
    (manifest : Json) (config_digest : Str) (c0 : FileData) (ls : List Json) (ds : List Str)
    (hcd : manifest.configDigest = .ok config_digest)
    (hc0 : fsLookup fs (blobFileName config_digest true) = some c0)
    (hls : layersDefault manifest = .ok ls)
    (hds : layerDigests ls = .ok ds)
    (hnet : ∀ d ∈ ds, (net d).isOk = true)
    (hinj : ∀ d1 ∈ ds, ∀ d2 ∈ ds, blobFileName d1 false = blobFileName d2 false → d1 = d2) :
    (pull_image (.ok manifest) net fs).2 =
      (ds.map (fun d => BlobEvent.mk d false (net d)), .success) ∧
    (∀ e ∈ (pull_image (.ok manifest) net fs).2.1, e.isConfig = false) ∧
    (∀ d ∈ ds, ∃ b, net d = .ok b ∧
      fsLookup (pull_image (.ok manifest) net fs).1 (blobFileName d false) =
        some (.raw b)) := by
  have hsome : (fsLookup fs (blobFileName config_digest true)).isSome = true := by
    rw [hc0]; rfl
  have hrw : pull_image (.ok manifest) net fs = pullRest net manifest fs [] := by
    unfold pull_image
    dsimp only
    rw [hcd]
    dsimp only
    rw [if_pos hsome]
  have hplok := pullLayers_ok net ls ds hds hnet fs
  have hst : (pullLayers net ls fs).2.2 = .success := by rw [hplok]
  have hevs : (pullLayers net ls fs).2.1 =
      ds.map (fun d => BlobEvent.mk d false (net d)) := by
    have h := congrArg Prod.fst hplok
    dsimp only at h
    exact h
  have hrw2 : pullRest net manifest fs [] =
      (fsWrite (pullLayers net ls fs).1 manifestName (.json manifest),
       (pullLayers net ls fs).2.1, .success) := by
    unfold pullRest
    rw [hls]
    dsimp only
    rw [if_pos hst, List.nil_append]
  refine ⟨?_, ?_, ?_⟩
  · rw [hrw, hrw2, hevs]
  · intro e he
    rw [hrw, hrw2] at he
    dsimp only at he
    rw [hevs] at he
    rcases List.mem_map.mp he with ⟨d2, hd2, rfl⟩
    rfl
  · intro d hd
    obtain ⟨b, hb, hlook⟩ := pullLayers_content net ls ds hds hnet hinj fs d hd
    refine ⟨b, hb, ?_⟩
    rw [hrw, hrw2]
    dsimp only
    rw [fsLookup_fsWrite, if_neg (layerFile_ne_manifestName d), hlook]

/-- Concrete manifest used by the pull witnesses: config digest
`sha256:c`, one layer digest `sha256:l`. -/
def pullWitManifest : Json :=
  .obj [("config".toList, .obj [("digest".toList, .str "sha256:c".toList)]),
        ("layers".toList, .arr [.obj [("digest".toList, .str "sha256:l".toList)]])]

/-- A network that answers every blob request with the bytes `B`. -/
def witNet : Str → Except PyError Str := fun _ => .ok "B".toList

/-- A directory already holding the config blob file. -/
def witDir : FS := [("sha256_c.json".toList, FileData.raw "X".toList)]

/-- Witness for C6 at the concrete manifest, network and directory. -/
theorem pull_config_skip_layers_refetch_witness :
    (pull_image (.ok pullWitManifest) witNet witDir).2 =
      ([BlobEvent.mk "sha256:l".toList false (witNet "sha256:l".toList)], .success) ∧
    (∀ e ∈ (pull_image (.ok pullWitManifest) witNet witDir).2.1, e.isConfig = false) ∧
    (∀ d ∈ ["sha256:l".toList], ∃ b, witNet d = .ok b ∧
      fsLookup (pull_image (.ok pullWitManifest) witNet witDir).1 (blobFileName d false) =
        some (.raw b)) :=
  pull_config_skip_layers_refetch witNet witDir pullWitManifest "sha256:c".toList
    (.raw "X".toList) [.obj [("digest".toList, .str "sha256:l".toList)]]
    ["sha256:l".toList] (by rfl) (by rfl) (by rfl) (by rfl) (by decide) (by decide)

/-- C10: `pull_image` writes `manifest.json` only after the manifest
fetch, the config download (when needed) and every layer download have
all succeeded: on any non-success outcome the `manifest.json` entry is
exactly what it was before the call, while every blob file written by a
successful download attempt is still in place. -/
theorem pull_manifest_written_last (fetchManifest : Except PyError Json)
    (net : Str → Except PyError Str) (fs : FS)
    (hne : ∀ e ∈ (pull_image fetchManifest net fs).2.1,
      blobFileName e.digest e.isConfig ≠ manifestName)
    (hfail : (pull_image fetchManifest net fs).2.2 ≠ .success) :
    fsLookup (pull_image fetchManifest net fs).1 manifestName = fsLookup fs manifestName ∧
    ∀ e ∈ (pull_image fetchManifest net fs).2.1, ∀ b, e.result = .ok b →
      (fsLookup (pull_image fetchManifest net fs).1
        (blobFileName e.digest e.isConfig)).isSome = true := by
  cases fetchManifest with
  | error e0 =>
    exact ⟨rfl, fun e he => by cases he⟩
  | ok manifest =>
    cases hcd : manifest.configDigest with
    | error e0 =>
      have hrw : pull_image (.ok manifest) net fs = (fs, [], .raised e0) := by
        unfold pull_image
        dsimp only
        rw [hcd]
      rw [hrw]
      exact ⟨rfl, fun e he => by cases he⟩
    | ok dc =>
      by_cases hcfg : (fsLookup fs (blobFileName dc true)).isSome = true
      · have hrw : pull_image (.ok manifest) net fs = pullRest net manifest fs [] := by
          unfold pull_image
          dsimp only
          rw [hcd]
          dsimp only
          rw [if_pos hcfg]
        rw [hrw] at hfail ⊢
        exact pullRest_fail_props net manifest fs [] hfail (fun e he => by cases he)
      · cases hn : net dc with
        | error e0 =>
          have hrw : pull_image (.ok manifest) net fs =
              (fs, [⟨dc, true, .error e0⟩], .configDownloadFailed) := by
            unfold pull_image
            dsimp only
            rw [hcd]
            dsimp only
            rw [if_neg hcfg, hn]
          rw [hrw]
          refine ⟨rfl, ?_⟩
          intro e he b hb
          rcases List.mem_singleton.mp he with rfl
          cases hb
        | ok body =>
          have hrw : pull_image (.ok manifest) net fs =
              pullRest net manifest (fsWrite fs (blobFileName dc true) (.raw body))
                [⟨dc, true, .ok body⟩] := by
            unfold pull_image
            dsimp only
            rw [hcd]
            dsimp only
            rw [if_neg hcfg, hn]
          rw [hrw] at hne hfail ⊢
          obtain ⟨ls, h1, h2⟩ := pullRest_fail_fs net manifest
            (fsWrite fs (blobFileName dc true) (.raw body)) [⟨dc, true, .ok body⟩] hfail
          have hmemcfg : (⟨dc, true, .ok body⟩ : BlobEvent) ∈
              (pullRest net manifest (fsWrite fs (blobFileName dc true) (.raw body))
                [⟨dc, true, .ok body⟩]).2.1 := by
            rw [h2]
            exact List.mem_append_left _ (List.mem_singleton_self _)
          have hnecfg : blobFileName dc true ≠ manifestName := hne _ hmemcfg
          have hevs0p : ∀ e ∈ [(⟨dc, true, .ok body⟩ : BlobEvent)], ∀ b2, e.result = .ok b2 →
              (fsLookup (fsWrite fs (blobFileName dc true) (.raw body))
                (blobFileName e.digest e.isConfig)).isSome = true := by
            intro e he b2 hb2
            rcases List.mem_singleton.mp he with rfl
            dsimp only
            rw [fsLookup_fsWrite, if_pos rfl]
            rfl
          have hprops := pullRest_fail_props net manifest
            (fsWrite fs (blobFileName dc true) (.raw body)) [⟨dc, true, .ok body⟩]
            hfail hevs0p
          refine ⟨?_, hprops.2⟩
          rw [hprops.1, fsLookup_fsWrite, if_neg (fun hEq => hnecfg hEq.symm)]

/-- A network on which every blob request fails. -/
def witNetFail : Str → Except PyError Str := fun _ => .error (.valueError "down".toList)

/-- Witness for C10: the config download fails on an empty directory and
`manifest.json` is absent before and after. -/
theorem pull_manifest_written_last_witness :
    fsLookup (pull_image (.ok pullWitManifest) witNetFail []).1 manifestName =
      fsLookup ([] : FS) manifestName ∧
    ∀ e ∈ (pull_image (.ok pullWitManifest) witNetFail []).2.1, ∀ b, e.result = .ok b →
      (fsLookup (pull_image (.ok pullWitManifest) witNetFail []).1
        (blobFileName e.digest e.isConfig)).isSome = true :=
  pull_manifest_written_last (.ok pullWitManifest) witNetFail [] (by decide) (by decide)

/-! ### The archive path built by `main` -/

/-- The archive path `main` builds (`pull.py` line 253):
`image_name.replace('/', '_') + "_" + image_ref.replace(':', '_') + ".tar"`. -/
def tarPathOf (image_name image_ref : Str) : Str :=
  replaceChar '/' '_' image_name ++ "_".toList ++ replaceChar ':' '_' image_ref ++ ".tar".toList

/-- The archive path of a pull link as `main` computes it: parse, then
name the file from the parsed image and reference. -/
def mainTarPath (pull_link : Str) : Except PyError Str :=
  match parse_docker_pull_link pull_link with
  | .error e => .error e
  | .ok (_, _, image_name, image_ref) => .ok (tarPathOf image_name image_ref)

/-- Following the spec's words (section 6) for comparison: an archive name
`{image-last-segment}_{ref-with-colon-replaced-by-underscore}.tar` built
from only the last slash-separated segment of the image path. -/
def specTarPath (image_name image_ref : Str) : Str :=
  (splitOnChar '/' image_name).getLastD [] ++ "_".toList ++
    replaceChar ':' '_' image_ref ++ ".tar".toList

/-- C7 (counterexample): for the pull link `h/p/a/b:t` the parsed image is
`a/b` and the archive is named `a_b_t.tar` — from the whole image path
with `/` replaced by `_` — not `b_t.tar` as the last-segment formula of
the claim would give. -/
theorem tar_name_counterexample :
    parse_docker_pull_link "h/p/a/b:t".toList =
      .ok ("h".toList, "p".toList, "a/b".toList, "t".toList) ∧
    mainTarPath "h/p/a/b:t".toList = .ok "a_b_t.tar".toList ∧
    specTarPath "a/b".toList "t".toList = "b_t.tar".toList ∧
    "a_b_t.tar".toList ≠ "b_t.tar".toList :=
  ⟨by decide, by decide, by decide, by decide⟩

/-- A successful assembly determines the archive's member names: the
loader manifest first, then the config file, then the layer files. -/
theorem create_ok_members (od : Str) (fs : FS) (pull : Str) (fs1 : FS) (t : Tar)
    (hc : create_image_tar od fs pull = (fs1, .ok t)) :
    ∃ m config_digest layers layer_ds,
      fsLookup fs manifestName = some (.json m) ∧
      m.configDigest = .ok config_digest ∧
      m.layersField = .ok layers ∧
      layerDigests layers = .ok layer_ds ∧
      t.map Prod.fst = manifestName :: blobFileName config_digest true ::
        layer_ds.map (fun d => blobFileName d false) := by
  revert hc
  unfold create_image_tar
  cases hm : fsLookup fs manifestName with
  | none => intro hc; exact absurd hc (by simp)
  | some data =>
    cases data with
    | raw bytes => intro hc; exact absurd hc (by simp)
    | json manifest =>
      dsimp only
      by_cases hf : manifest.falsy = true
      · rw [if_pos hf]; intro hc; exact absurd hc (by simp)
      · rw [if_neg hf]
        by_cases ho : (!manifest.isObj) = true
        · rw [if_pos ho]; intro hc; exact absurd hc (by simp)
        · rw [if_neg ho]
          by_cases hk :
              (!(manifest.hasKey "config".toList && manifest.hasKey "layers".toList)) = true
          · rw [if_pos hk]; intro hc; exact absurd hc (by simp)
          · rw [if_neg hk]
            cases hcd : manifest.configDigest with
            | error e => intro hc; exact absurd hc (by simp)
            | ok config_digest =>
              dsimp only
              cases hlf : manifest.layersField with
              | error e => intro hc; exact absurd hc (by simp)
              | ok layers =>
                dsimp only
                cases hld : layerDigests layers with
                | error e => intro hc; exact absurd hc (by simp)
                | ok layer_ds =>
                  dsimp only
                  by_cases hcf : (fsLookup fs (blobFileName config_digest true)).isNone = true
                  · rw [if_pos hcf]; intro hc; exact absurd hc (by simp)
                  · rw [if_neg hcf]
                    cases hfm :
                        firstMissing fs (layer_ds.map (fun d => blobFileName d false)) with
                    | some lf => intro hc; exact absurd hc (by simp)
                    | none =>
                      dsimp only
                      cases hrt : repoTag pull with
                      | error e => intro hc; exact absurd hc (by simp)
                      | ok repo_tag =>
                        dsimp only
                        intro hc
                        simp only [Prod.mk.injEq] at hc
                        obtain ⟨hfs, ht⟩ := hc
                        injection ht with ht
                        refine ⟨manifest, config_digest, layers, layer_ds, rfl, hcd, hlf, hld, ?_⟩
                        rw [← ht]
                        simp [List.map_map, Function.comp]

/-- C7 (amended): for every successful pull, the archive is the single
file named
`{image-path-with-slashes-replaced-by-underscores}_{ref-with-colon-replaced-by-underscore}.tar`
— the whole parsed image path is used, not only its last segment — and
its top-level members are `manifest.json`, the config file, and the layer
files, in that order. -/
theorem tar_name_and_members (output_dir : Str) (fs : FS) (pull_link : Str)
    (host project image_name image_ref : Str) (fs1 : FS) (t : Tar)
    (hp : parse_docker_pull_link pull_link = .ok (host, project, image_name, image_ref))
    (hc : create_image_tar output_dir fs pull_link = (fs1, .ok t)) :
    mainTarPath pull_link =
      .ok (replaceChar '/' '_' image_name ++ "_".toList ++
        replaceChar ':' '_' image_ref ++ ".tar".toList) ∧
    ∃ m config_digest layers layer_ds,
      fsLookup fs manifestName = some (.json m) ∧
      m.configDigest = .ok config_digest ∧
      m.layersField = .ok layers ∧
      layerDigests layers = .ok layer_ds ∧
      t.map Prod.fst = manifestName :: blobFileName config_digest true ::
        layer_ds.map (fun d => blobFileName d false) := by
  constructor
  · unfold mainTarPath
    rw [hp]
    rfl
  · exact create_ok_members output_dir fs pull_link fs1 t hc

/-- Witness for the amended C7 at the concrete scenario and the pull link
`h/p/a/b:t`, whose image path has two segments. -/
theorem tar_name_and_members_witness :
    mainTarPath "h/p/a/b:t".toList =
      .ok (replaceChar '/' '_' "a/b".toList ++ "_".toList ++
        replaceChar ':' '_' "t".toList ++ ".tar".toList) ∧
    ∃ m config_digest layers layer_ds,
      fsLookup (scenarioDir (.raw "C1".toList) (.raw "C2".toList)) manifestName =
        some (.json m) ∧
      m.configDigest = .ok config_digest ∧
      m.layersField = .ok layers ∧
      layerDigests layers = .ok layer_ds ∧
      ([(manifestName, FileData.json (scenarioLoaderManifest "h/p/a/b:t".toList)),
        ("sha256_aaa.json".toList, FileData.raw "C1".toList),
        ("sha256_bbb.tar.gz".toList, FileData.raw "C2".toList)] : Tar).map Prod.fst =
        manifestName :: blobFileName config_digest true ::
          layer_ds.map (fun d => blobFileName d false) :=
  tar_name_and_members "out".toList (scenarioDir (.raw "C1".toList) (.raw "C2".toList))
    "h/p/a/b:t".toList "h".toList "p".toList "a/b".toList "t".toList
    [(manifestName, FileData.json (scenarioLoaderManifest "h/p/a/b:t".toList)),
     ("sha256_aaa.json".toList, FileData.raw "C1".toList),
     ("sha256_bbb.tar.gz".toList, FileData.raw "C2".toList)]
    [(manifestName, FileData.json (scenarioLoaderManifest "h/p/a/b:t".toList)),
     ("sha256_aaa.json".toList, FileData.raw "C1".toList),
     ("sha256_bbb.tar.gz".toList, FileData.raw "C2".toList)]
    (by decide) (by rfl)

-- concrete evaluations of the parser embedding on the docstring's examples
example :
    parse_docker_pull_link "harbor.example.com/myproject/nginx:latest".toList =
      .ok ("harbor.example.com".toList, "myproject".toList, "nginx".toList, "latest".toList) := by
  decide

example :
    parse_docker_pull_link "h.com/proj/a/b@sha256:abc123".toList =
      .ok ("h.com".toList, "proj".toList, "a/b".toList, "sha256:abc123".toList) := by
  decide

example :
    parse_docker_pull_link "h/p/i".toList =
      .ok ("h".toList, "p".toList, "i".toList, "latest".toList) := by
  decide
